import Mathlib

/-!
A shallow embedding of the `mf` Go package (`src/mf.go`): a cache-aside CRUD
layer over a relational store (gorm) and a key-value cache (redis), plus a
secondary-index ("link") cache.

The two back ends are modelled as oracles supplied in an environment `Env`:
the relational rows visible to the two `First...` queries are an explicit
list, while every other store or cache call is an arbitrary function chosen
by the environment.  Every embedded operation returns the value the Go
function returns together with the ordered list of back-end calls
("events") it issued, so that claims about invalidation and read-through
behaviour can be stated on the trace.
-/

namespace Mf

/-- Errors as the Go code distinguishes them: `redis.Nil` (entry absent),
`gorm.ErrRecordNotFound`, and everything else identified by its message. -/
inductive GoErr where
  | redisNil
  | gormNotFound
  | oth (msg : String)
  deriving DecidableEq, Repr

/-- The Go helper `ErrIsRedisNil` (`errors.Is(err, redis.Nil)`). -/
def ErrIsRedisNil (e : GoErr) : Bool :=
  match e with
  | .redisNil => true
  | _ => false

/-- One back-end call issued by an operation. -/
inductive Event where
  | storeCreate
  | storeUpdate (id : Nat)
  | storeSave (id : Nat)
  | storeFirst (id : Nat)
  | storeFirstSD (id : Nat)
  | storeDelete (id : Nat)
  | storeSoftDelete (id : Nat)
  | finderFind (linkType : String) (field : String)
  | cacheGet (key : String)
  | cacheSet (key : String) (value : String) (ttl : Nat)
  | cacheDel (key : String)
  deriving DecidableEq, Repr

/-- A relational row as far as this layer can see it: a numeric id, a
soft-delete marker (`0` models the zero `time.Time`), and the payload. -/
structure Row (M : Type) where
  id : Nat
  deleted_at : Nat
  data : M
  deriving DecidableEq, Repr

/-- The Go `LinkFinder` interface.  `Find` hits the store through the
registered resolver (opaque to this layer), `FieldValue` extracts the link
field from a Record. -/
structure LinkFinder (M : Type) where
  Find : String → Except GoErr Nat
  FieldValue : M → String

/-- The environment: the oracles standing for the gorm and redis clients,
serialization, and the reflective hook lookup.  `hook meth m = none` models
a Record type with no method named `meth`; `some r` models a present method
returning `r` (`none` = nil error). -/
structure Env (M : Type) where
  rows : List (Row M)
  storeCreate : M → Option GoErr
  storeUpdate : Nat → M → Option GoErr
  storeSave : Nat → M → Option GoErr
  storeDelete : Nat → M → Option GoErr
  storeSoftDelete : Nat → M → Option GoErr
  cacheGet : String → Except GoErr String
  cacheSet : String → String → Nat → Option GoErr
  cacheDel : String → Option GoErr
  serialize : M → String
  deserialize : String → M → Except GoErr M
  hook : String → M → Option (Option GoErr)

/-- The `ModelFunc` configuration struct.  `RedisPrefixStr` is the Go field
`RedisPrefix`; the Go `map[string]LinkFinder` is an association list with
distinct keys. -/
structure ModelFunc (M : Type) where
  UseCache : Bool
  RedisPrefixStr : String
  Expire : Nat
  LinkMap : List (String × LinkFinder M)

/-- Numeric value of a decimal digit character. -/
def digitVal (ch : Char) : Nat := ch.toNat - 48

/-- Fueled little-endian decimal digit extraction; `fuel` at least `n`
always suffices. -/
def toDigitsRevAux (fuel n : Nat) : List Nat :=
  match fuel with
  | 0 => [n]
  | f + 1 => if n < 10 then [n] else (n % 10) :: toDigitsRevAux f (n / 10)

/-- Little-endian decimal digits of `n`, the recursion of
`strconv.FormatUint`. -/
def toDigitsRev (n : Nat) : List Nat :=
  toDigitsRevAux n n

/-- Model of `cast.ToString` on `uint64`: decimal notation. -/
def castToString (n : Nat) : String :=
  String.mk ((toDigitsRev n).reverse.map Nat.digitChar)

/-- Accumulating decimal parse of a character list. -/
def parseDecAcc : Nat → List Char → Nat
  | acc, [] => acc
  | acc, ch :: t => parseDecAcc (acc * 10 + digitVal ch) t

/-- Model of `cast.ToUint64` on the strings this package stores in the
cache: a nonempty all-digit string parses as decimal, anything else casts
to `0`. -/
def castToUint64 (s : String) : Nat :=
  if s.data ≠ [] ∧ s.data.all Char.isDigit then parseDecAcc 0 s.data else 0

/-- `cacheKey`: the primary cache key for an id. -/
def cacheKey {M : Type} (c : ModelFunc M) (id : Nat) : String :=
  c.RedisPrefixStr ++ "id:" ++ castToString id

/-- `linkKey`: the link cache key for a linkType and field value. -/
def linkKey {M : Type} (c : ModelFunc M) (linkType field : String) : String :=
  c.RedisPrefixStr ++ linkType ++ ":" ++ field

/-- `time.Hour * 24 * 7` in nanoseconds: the fixed TTL of link entries. -/
def linkTTL : Nat := 7 * 24 * 60 * 60 * 1000000000

/-- `deleteCache`: delete the primary cache entry for `id`. -/
def deleteCache {M : Type} (env : Env M) (c : ModelFunc M) (id : Nat) :
    Option GoErr × List Event :=
  (env.cacheDel (cacheKey c id), [Event.cacheDel (cacheKey c id)])

/-- `updateCache`: write the serialized Record under the primary key with
the configured expiry (the `json.Marshal` error is discarded in the Go
code, so serialization is total here). -/
def updateCache {M : Type} (env : Env M) (c : ModelFunc M) (model : M) (id : Nat) :
    Option GoErr × List Event :=
  (env.cacheSet (cacheKey c id) (env.serialize model) c.Expire,
   [Event.cacheSet (cacheKey c id) (env.serialize model) c.Expire])

/-- `getCache`: read the primary cache entry and deserialize it into the
Record. -/
def getCache {M : Type} (env : Env M) (c : ModelFunc M) (model : M) (id : Nat) :
    Except GoErr M × List Event :=
  (match env.cacheGet (cacheKey c id) with
   | .error e => .error e
   | .ok res => env.deserialize res model,
   [Event.cacheGet (cacheKey c id)])

/-- `updateByIdM`: the direct store partial update. -/
def updateByIdM {M : Type} (env : Env M) (model : M) (id : Nat) :
    Option GoErr × List Event :=
  (env.storeUpdate id model, [Event.storeUpdate id])

/-- `saveByIdM`: the direct store full-row save. -/
def saveByIdM {M : Type} (env : Env M) (model : M) (id : Nat) :
    Option GoErr × List Event :=
  (env.storeSave id model, [Event.storeSave id])

/-- `firstByIdM`: `Where("id = ?", id).First(model)` over the visible rows;
no match is `gorm.ErrRecordNotFound`. -/
def firstByIdM {M : Type} (env : Env M) (id : Nat) :
    Except GoErr M × List Event :=
  (match env.rows.find? (fun r => r.id == id) with
   | some r => .ok r.data
   | none => .error .gormNotFound,
   [Event.storeFirst id])

/-- `firstByIdFilterSoftDelM`: `Where("id = ? AND deleted_at = ?", id,
time.Time{}).First(model)` — only rows whose soft-delete marker is the zero
time match. -/
def firstByIdFilterSoftDelM {M : Type} (env : Env M) (id : Nat) :
    Except GoErr M × List Event :=
  (match env.rows.find? (fun r => r.id == id && r.deleted_at == 0) with
   | some r => .ok r.data
   | none => .error .gormNotFound,
   [Event.storeFirstSD id])

/-- `deleteByIdM`: the direct store hard delete. -/
def deleteByIdM {M : Type} (env : Env M) (model : M) (id : Nat) :
    Option GoErr × List Event :=
  (env.storeDelete id model, [Event.storeDelete id])

/-- `softDeleteByIdM`: set `deleted_at` to the current time (the timestamp
itself is irrelevant to this layer's logic). -/
def softDeleteByIdM {M : Type} (env : Env M) (model : M) (id : Nat) :
    Option GoErr × List Event :=
  (env.storeSoftDelete id model, [Event.storeSoftDelete id])

/-- `delLink`: delete one link cache entry; an empty field is refused
before any cache call. -/
def delLink {M : Type} (env : Env M) (c : ModelFunc M) (linkType field : String) :
    Option GoErr × List Event :=
  if field = "" then (some (.oth "delLink 缺少参数 field"), [])
  else (env.cacheDel (linkKey c linkType field),
        [Event.cacheDel (linkKey c linkType field)])

/-- The `for linkType, linkFunc := range c.LinkMap` invalidation loop: every
registered linkType is visited and each `delLink` error is discarded. -/
def delLinkLoop {M : Type} (env : Env M) (c : ModelFunc M) (model : M) :
    List Event :=
  (c.LinkMap.map (fun p => (delLink env c p.1 (p.2.FieldValue model)).2)).flatten

/-- `updateByIdR`: store write, then primary invalidation, then the link
invalidation loop. -/
def updateByIdR {M : Type} (env : Env M) (c : ModelFunc M) (model : M) (id : Nat) :
    Option GoErr × List Event :=
  match updateByIdM env model id with
  | (some e, t1) => (some e, t1)
  | (none, t1) =>
    match deleteCache env c id with
    | (some e, t2) => (some e, t1 ++ t2)
    | (none, t2) => (none, t1 ++ t2 ++ delLinkLoop env c model)

/-- `saveByIdR`: like `updateByIdR` with the full-row save. -/
def saveByIdR {M : Type} (env : Env M) (c : ModelFunc M) (model : M) (id : Nat) :
    Option GoErr × List Event :=
  match saveByIdM env model id with
  | (some e, t1) => (some e, t1)
  | (none, t1) =>
    match deleteCache env c id with
    | (some e, t2) => (some e, t1 ++ t2)
    | (none, t2) => (none, t1 ++ t2 ++ delLinkLoop env c model)

/-- `deleteByIdR`: hard delete, then the same invalidations. -/
def deleteByIdR {M : Type} (env : Env M) (c : ModelFunc M) (model : M) (id : Nat) :
    Option GoErr × List Event :=
  match deleteByIdM env model id with
  | (some e, t1) => (some e, t1)
  | (none, t1) =>
    match deleteCache env c id with
    | (some e, t2) => (some e, t1 ++ t2)
    | (none, t2) => (none, t1 ++ t2 ++ delLinkLoop env c model)

/-- `softDeleteByIdR`: soft delete, then the same invalidations. -/
def softDeleteByIdR {M : Type} (env : Env M) (c : ModelFunc M) (model : M) (id : Nat) :
    Option GoErr × List Event :=
  match softDeleteByIdM env model id with
  | (some e, t1) => (some e, t1)
  | (none, t1) =>
    match deleteCache env c id with
    | (some e, t2) => (some e, t1 ++ t2)
    | (none, t2) => (none, t1 ++ t2 ++ delLinkLoop env c model)

/-- The write-then-invalidate tail shared verbatim by the four cache-mode
mutations: first-step result `(w, [ev])`, then `deleteCache`, then the link
invalidation loop.  `updateByIdR`, `saveByIdR`, `deleteByIdR` and
`softDeleteByIdR` are definitionally instances of it (proved below), so
facts about the shared tail are proved once. -/
def mutTail {M : Type} (env : Env M) (c : ModelFunc M) (model : M) (id : Nat)
    (w : Option GoErr) (ev : Event) : Option GoErr × List Event :=
  match (w, [ev]) with
  | (some e, t1) => (some e, t1)
  | (none, t1) =>
    match deleteCache env c id with
    | (some e, t2) => (some e, t1 ++ t2)
    | (none, t2) => (none, t1 ++ t2 ++ delLinkLoop env c model)

/-- `firstByIdR`: read-through fetch; only `redis.Nil` from `getCache`
falls back to the store, any other error returns. -/
def firstByIdR {M : Type} (env : Env M) (c : ModelFunc M) (model : M) (id : Nat) :
    Except GoErr M × List Event :=
  match getCache env c model id with
  | (.ok m1, t1) => (.ok m1, t1)
  | (.error e, t1) =>
    if ErrIsRedisNil e then
      match firstByIdM env id with
      | (.error e2, t2) => (.error e2, t1 ++ t2)
      | (.ok m2, t2) =>
        match updateCache env c m2 id with
        | (some e3, t3) => (.error e3, t1 ++ t2 ++ t3)
        | (none, t3) => (.ok m2, t1 ++ t2 ++ t3)
    else (.error e, t1)

/-- `firstByIdFilterSoftDelR`: textually the same read-through as
`firstByIdR` but with the soft-delete-filtered store query. -/
def firstByIdFilterSoftDelR {M : Type} (env : Env M) (c : ModelFunc M) (model : M) (id : Nat) :
    Except GoErr M × List Event :=
  match getCache env c model id with
  | (.ok m1, t1) => (.ok m1, t1)
  | (.error e, t1) =>
    if ErrIsRedisNil e then
      match firstByIdFilterSoftDelM env id with
      | (.error e2, t2) => (.error e2, t1 ++ t2)
      | (.ok m2, t2) =>
        match updateCache env c m2 id with
        | (some e3, t3) => (.error e3, t1 ++ t2 ++ t3)
        | (none, t3) => (.ok m2, t1 ++ t2 ++ t3)
    else (.error e, t1)

/-- `getLink`: read the link cache entry; an empty field is refused before
any cache call. -/
def getLink {M : Type} (env : Env M) (c : ModelFunc M) (linkType field : String) :
    Except GoErr String × List Event :=
  if field = "" then (.error (.oth "getLink 缺少参数 field"), [])
  else (env.cacheGet (linkKey c linkType field),
        [Event.cacheGet (linkKey c linkType field)])

/-- The `id, _ := c.getLink(...)` pattern: the error is discarded and the
value is the empty string whenever `getLink` failed. -/
def getLinkId {M : Type} (env : Env M) (c : ModelFunc M) (linkType field : String) :
    String × List Event :=
  match getLink env c linkType field with
  | (.ok s, t) => (s, t)
  | (.error _, t) => ("", t)

/-- `createLink`: write the link cache entry (value is the decimal id) with
the fixed 7-day TTL; zero id or empty field is refused first. -/
def createLink {M : Type} (env : Env M) (c : ModelFunc M) (id : Nat) (linkType field : String) :
    Option GoErr × List Event :=
  if id = 0 then (some (.oth "createLink 缺少参数 id"), [])
  else if field = "" then (some (.oth "createLink 缺少参数 field"), [])
  else (env.cacheSet (linkKey c linkType field) (castToString id) linkTTL,
        [Event.cacheSet (linkKey c linkType field) (castToString id) linkTTL])

/-- The reflective `hook` helper: when the Record type has no method of the
given name the hook returns nil, otherwise it returns whatever the method
returned. -/
def hookRun {M : Type} (env : Env M) (meth : String) (model : M) : Option GoErr :=
  match env.hook meth model with
  | none => none
  | some r => r

/-- Registry lookup `c.LinkMap[linkType]`. -/
def lookupLink {M : Type} (c : ModelFunc M) (linkType : String) :
    Option (LinkFinder M) :=
  (c.LinkMap.find? (fun p => p.1 == linkType)).map Prod.snd

/-- `Create`: plain store insert, no cache interaction. -/
def Create {M : Type} (env : Env M) (model : M) : Option GoErr × List Event :=
  (env.storeCreate model, [Event.storeCreate])

/-- `UpdateById`: dispatch on the cache mode, then `return c.hook(...)` —
the Go function returns the hook helper's result, not the assigned `err`. -/
def UpdateById {M : Type} (env : Env M) (c : ModelFunc M) (model : M) (id : Nat) :
    Option GoErr × List Event :=
  let r := if c.UseCache then updateByIdR env c model id else updateByIdM env model id
  (hookRun env "MfAfterUpdateById" model, r.2)

/-- `SaveById`: dispatch, then `return c.hook(...)`. -/
def SaveById {M : Type} (env : Env M) (c : ModelFunc M) (model : M) (id : Nat) :
    Option GoErr × List Event :=
  let r := if c.UseCache then saveByIdR env c model id else saveByIdM env model id
  (hookRun env "MfAfterSaveById" model, r.2)

/-- `FirstById`: dispatch on the cache mode. -/
def FirstById {M : Type} (env : Env M) (c : ModelFunc M) (model : M) (id : Nat) :
    Except GoErr M × List Event :=
  if c.UseCache then firstByIdR env c model id else firstByIdM env id

/-- `FirstByIdSD`: dispatch on the cache mode, soft-delete-aware variants. -/
def FirstByIdSD {M : Type} (env : Env M) (c : ModelFunc M) (model : M) (id : Nat) :
    Except GoErr M × List Event :=
  if c.UseCache then firstByIdFilterSoftDelR env c model id
  else firstByIdFilterSoftDelM env id

/-- `FirstByLink`: registry check, link-cache probe (error discarded),
resolver fallback with lazy link creation, then delegation to `FirstById`
whenever the id in hand casts to a positive number. -/
def FirstByLink {M : Type} (env : Env M) (c : ModelFunc M) (linkType : String)
    (model : M) (field : String) : Except GoErr M × List Event :=
  match lookupLink c linkType with
  | none => (.error (.oth "不存在指定的 linkType"), [])
  | some finder =>
    let gl := getLinkId env c linkType field
    if castToUint64 gl.1 = 0 then
      match finder.Find field with
      | .error e => (.error e, gl.2 ++ [Event.finderFind linkType field])
      | .ok idInt =>
        if 0 < idInt then
          match createLink env c idInt linkType field with
          | (some e, t3) => (.error e, gl.2 ++ [Event.finderFind linkType field] ++ t3)
          | (none, t3) =>
            if 0 < castToUint64 (castToString idInt) then
              let r := FirstById env c model (castToUint64 (castToString idInt))
              (r.1, gl.2 ++ [Event.finderFind linkType field] ++ t3 ++ r.2)
            else (.ok model, gl.2 ++ [Event.finderFind linkType field] ++ t3)
        else (.ok model, gl.2 ++ [Event.finderFind linkType field])
    else
      let r := FirstById env c model (castToUint64 gl.1)
      (r.1, gl.2 ++ r.2)

/-- `FirstByLinkSD`: the Go function's body is textually identical to
`FirstByLink` — it too ends in `FirstById`, not the soft-delete-aware
fetch. -/
def FirstByLinkSD {M : Type} (env : Env M) (c : ModelFunc M) (linkType : String)
    (model : M) (field : String) : Except GoErr M × List Event :=
  match lookupLink c linkType with
  | none => (.error (.oth "不存在指定的 linkType"), [])
  | some finder =>
    let gl := getLinkId env c linkType field
    if castToUint64 gl.1 = 0 then
      match finder.Find field with
      | .error e => (.error e, gl.2 ++ [Event.finderFind linkType field])
      | .ok idInt =>
        if 0 < idInt then
          match createLink env c idInt linkType field with
          | (some e, t3) => (.error e, gl.2 ++ [Event.finderFind linkType field] ++ t3)
          | (none, t3) =>
            if 0 < castToUint64 (castToString idInt) then
              let r := FirstById env c model (castToUint64 (castToString idInt))
              (r.1, gl.2 ++ [Event.finderFind linkType field] ++ t3 ++ r.2)
            else (.ok model, gl.2 ++ [Event.finderFind linkType field] ++ t3)
        else (.ok model, gl.2 ++ [Event.finderFind linkType field])
    else
      let r := FirstById env c model (castToUint64 gl.1)
      (r.1, gl.2 ++ r.2)

/-- `DeleteById`: dispatch, then `return c.hook(...)`. -/
def DeleteById {M : Type} (env : Env M) (c : ModelFunc M) (model : M) (id : Nat) :
    Option GoErr × List Event :=
  let r := if c.UseCache then deleteByIdR env c model id else deleteByIdM env model id
  (hookRun env "MfAfterDeleteById" model, r.2)

/-- `SoftDeleteById`: dispatch, then `return c.hook(...)`. -/
def SoftDeleteById {M : Type} (env : Env M) (c : ModelFunc M) (model : M) (id : Nat) :
    Option GoErr × List Event :=
  let r := if c.UseCache then softDeleteByIdR env c model id else softDeleteByIdM env model id
  (hookRun env "MfAfterSoftDeleteById" model, r.2)

/-! ### Concrete instances used by witnesses and counterexamples -/

/-- A benign environment over `Nat` records: every store and cache call
succeeds, the cache is empty (`redis.Nil` on every get), serialization is
decimal, and no Record type exposes a hook method. -/
def envBase : Env Nat :=
  ⟨[], fun _ => none, fun _ _ => none, fun _ _ => none, fun _ _ => none,
   fun _ _ => none, fun _ => .error .redisNil, fun _ _ _ => none,
   fun _ => none, castToString, fun s _ => .ok (castToUint64 s),
   fun _ _ => none⟩

/-- A finder whose extracted field value is always empty. -/
def finderEmptyF : LinkFinder Nat :=
  ⟨fun _ => .ok 0, fun _ => ""⟩

/-- A finder that resolves the field `"fld"` to id `3` and extracts the
decimal value of the record. -/
def finderF : LinkFinder Nat :=
  ⟨fun f => if f = "fld" then .ok 3 else .ok 0, fun m => castToString m⟩

/-- Cache-disabled configuration. -/
def cfgNoCache : ModelFunc Nat :=
  ⟨false, "p:", 99, []⟩

/-- Cache-enabled configuration with one registered linkType whose field
extraction yields the empty string. -/
def cfgEmptyField : ModelFunc Nat :=
  ⟨true, "p:", 99, [("L", finderEmptyF)]⟩

/-- Cache-enabled configuration with one ordinary registered linkType. -/
def cfgCache : ModelFunc Nat :=
  ⟨true, "p:", 99, [("L", finderF)]⟩

/-- Environment in which every store mutation fails with the same error and
no Record type exposes a hook method. -/
def envErrStore : Env Nat :=
  { envBase with
    storeUpdate := fun _ _ => some (.oth "boom")
    storeSave := fun _ _ => some (.oth "boom")
    storeDelete := fun _ _ => some (.oth "boom")
    storeSoftDelete := fun _ _ => some (.oth "boom") }

/-- Environment in which every store mutation fails, yet every hook method
exists and fails with its own error. -/
def envHook : Env Nat :=
  { envErrStore with
    hook := fun _ _ => some (some (.oth "hook failed")) }

/-- Environment in which the primary cache delete succeeds but every other
cache delete (so in particular every link-key delete) fails. -/
def envLinkDelFail : Env Nat :=
  { envBase with
    cacheDel := fun k => if k = "p:id:1" then none else some (.oth "net down") }

/-- Environment with a cache hit for id 1: the cache holds the serialized
value `"7"` under the primary key. -/
def envHit : Env Nat :=
  { envBase with
    cacheGet := fun k => if k = "p:id:1" then .ok "7" else .error .redisNil }

/-- Environment whose single visible row with id 1 is soft-deleted
(marker 5), while the cache still holds a serialized copy of it. -/
def envSD : Env Nat :=
  { envBase with
    rows := [⟨1, 5, 42⟩]
    cacheGet := fun k => if k = "p:id:1" then .ok "42" else .error .redisNil }

/-! ### Decimal cast round trip -/

/-- The fuel argument of `toDigitsRevAux` is irrelevant once it is at least
the number being printed. -/
theorem toDigitsRevAux_irrel (f1 : Nat) :
    ∀ f2 n, n ≤ f1 → n ≤ f2 → toDigitsRevAux f1 n = toDigitsRevAux f2 n := by
  induction f1 with
  | zero =>
    intro f2 n h1 _
    interval_cases n
    cases f2 <;> simp [toDigitsRevAux]
  | succ f ih =>
    intro f2 n h1 h2
    cases f2 with
    | zero =>
      interval_cases n
      simp [toDigitsRevAux]
    | succ g =>
      simp only [toDigitsRevAux]
      by_cases h : n < 10
      · simp [h]
      · simp only [h, if_false]
        rw [ih g (n / 10) (by omega) (by omega)]

/-- Unfolding equation of `toDigitsRev`. -/
theorem toDigitsRev_eq (n : Nat) :
    toDigitsRev n = if n < 10 then [n] else (n % 10) :: toDigitsRev (n / 10) := by
  by_cases h : n < 10
  · rcases n with _ | m <;> simp [toDigitsRev, toDigitsRevAux, h]
  · obtain ⟨m, rfl⟩ : ∃ m, n = m + 1 := ⟨n - 1, by omega⟩
    simp only [toDigitsRev, toDigitsRevAux, h, if_false]
    exact congrArg _ (toDigitsRevAux_irrel m ((m + 1) / 10) ((m + 1) / 10)
      (by omega) (by omega))

/-- Decimal printing never yields the empty digit list. -/
theorem toDigitsRev_ne_nil (n : Nat) : toDigitsRev n ≠ [] := by
  rw [toDigitsRev_eq]
  split <;> simp

/-- Every printed digit is below ten. -/
theorem toDigitsRev_digit_lt (n : Nat) : ∀ d ∈ toDigitsRev n, d < 10 := by
  induction n using Nat.strong_induction_on with
  | _ n ih =>
    rw [toDigitsRev_eq]
    split
    · next h =>
      intro d hd
      simp at hd
      omega
    · next h =>
      intro d hd
      simp at hd
      rcases hd with rfl | hd
      · omega
      · exact ih (n / 10) (by omega) d hd

/-- Digit characters are decimal digits. -/
theorem digitChar_isDigit {d : Nat} (h : d < 10) :
    (Nat.digitChar d).isDigit = true := by
  interval_cases d <;> decide

/-- `digitVal` inverts `Nat.digitChar` on decimal digits. -/
theorem digitVal_digitChar {d : Nat} (h : d < 10) :
    digitVal (Nat.digitChar d) = d := by
  interval_cases d <;> decide

/-- Defining equation of `parseDecAcc` on the empty list. -/
theorem parseDecAcc_nil (acc : Nat) : parseDecAcc acc [] = acc := rfl

/-- Defining equation of `parseDecAcc` on a cons. -/
theorem parseDecAcc_cons (acc : Nat) (c : Char) (t : List Char) :
    parseDecAcc acc (c :: t) = parseDecAcc (acc * 10 + digitVal c) t := rfl

/-- `parseDecAcc` distributes over list append. -/
theorem parseDecAcc_append (acc : Nat) (l1 l2 : List Char) :
    parseDecAcc acc (l1 ++ l2) = parseDecAcc (parseDecAcc acc l1) l2 := by
  induction l1 generalizing acc with
  | nil => rfl
  | cons c t ih => exact ih (acc * 10 + digitVal c)

/-- Parsing the printed digits of `n` after an accumulator shifts the
accumulator by the digit count and adds `n`. -/
theorem parseDecAcc_toDigitsRev (n : Nat) :
    ∀ acc, parseDecAcc acc ((toDigitsRev n).reverse.map Nat.digitChar)
      = acc * 10 ^ (toDigitsRev n).length + n := by
  induction n using Nat.strong_induction_on with
  | _ n ih =>
    intro acc
    rw [toDigitsRev_eq]
    split
    · next h =>
      rw [List.reverse_singleton, List.map_cons, List.map_nil, parseDecAcc_cons,
        parseDecAcc_nil, digitVal_digitChar h]
      simp
    · next h =>
      have hm : n % 10 < 10 := by omega
      rw [List.reverse_cons, List.map_append, parseDecAcc_append,
        ih (n / 10) (by omega) acc]
      rw [List.map_cons, List.map_nil, parseDecAcc_cons, parseDecAcc_nil,
        digitVal_digitChar hm, List.length_cons, pow_succ]
      have hdm := Nat.div_add_mod n 10
      calc (acc * 10 ^ (toDigitsRev (n / 10)).length + n / 10) * 10 + n % 10
          = acc * (10 ^ (toDigitsRev (n / 10)).length * 10)
            + (10 * (n / 10) + n % 10) := by ring
        _ = acc * (10 ^ (toDigitsRev (n / 10)).length * 10) + n := by
            rw [hdm]

/-- `cast.ToUint64` inverts `cast.ToString` on every `uint64`. -/
theorem castToUint64_castToString (n : Nat) :
    castToUint64 (castToString n) = n := by
  have hne : (toDigitsRev n).reverse.map Nat.digitChar ≠ [] := by
    simp [toDigitsRev_ne_nil n]
  have hall : ((toDigitsRev n).reverse.map Nat.digitChar).all Char.isDigit = true := by
    rw [List.all_eq_true]
    intro c hc
    rw [List.mem_map] at hc
    obtain ⟨d, hd, rfl⟩ := hc
    rw [List.mem_reverse] at hd
    exact digitChar_isDigit (toDigitsRev_digit_lt n d hd)
  show (if _ ∧ _ then _ else _) = n
  rw [if_pos ⟨hne, hall⟩]
  show parseDecAcc 0 ((toDigitsRev n).reverse.map Nat.digitChar) = n
  rw [parseDecAcc_toDigitsRev n 0]
  simp

/-! ### General lemmas about the mutation tail -/

/-- The four cache-mode mutations are instances of `mutTail`. -/
theorem updateByIdR_eq_mutTail {M : Type} (env : Env M) (c : ModelFunc M)
    (model : M) (id : Nat) :
    updateByIdR env c model id
      = mutTail env c model id (env.storeUpdate id model) (Event.storeUpdate id) := rfl

/-- `saveByIdR` as a `mutTail` instance. -/
theorem saveByIdR_eq_mutTail {M : Type} (env : Env M) (c : ModelFunc M)
    (model : M) (id : Nat) :
    saveByIdR env c model id
      = mutTail env c model id (env.storeSave id model) (Event.storeSave id) := rfl

/-- `deleteByIdR` as a `mutTail` instance. -/
theorem deleteByIdR_eq_mutTail {M : Type} (env : Env M) (c : ModelFunc M)
    (model : M) (id : Nat) :
    deleteByIdR env c model id
      = mutTail env c model id (env.storeDelete id model) (Event.storeDelete id) := rfl

/-- `softDeleteByIdR` as a `mutTail` instance. -/
theorem softDeleteByIdR_eq_mutTail {M : Type} (env : Env M) (c : ModelFunc M)
    (model : M) (id : Nat) :
    softDeleteByIdR env c model id
      = mutTail env c model id (env.storeSoftDelete id model) (Event.storeSoftDelete id) := rfl

/-- A registered linkType with a non-empty extracted field value gets its
link-cache delete issued by the invalidation loop. -/
theorem mem_delLinkLoop {M : Type} (env : Env M) (c : ModelFunc M) (model : M)
    {p : String × LinkFinder M} (hp : p ∈ c.LinkMap)
    (hf : p.2.FieldValue model ≠ "") :
    Event.cacheDel (linkKey c p.1 (p.2.FieldValue model)) ∈ delLinkLoop env c model := by
  unfold delLinkLoop
  rw [List.mem_flatten]
  refine ⟨(delLink env c p.1 (p.2.FieldValue model)).2, List.mem_map_of_mem _ hp, ?_⟩
  simp [delLink, hf]

/-- Behaviour of the shared mutation tail: on overall success the primary
delete and every non-empty-field link delete are in the trace; when the
store write failed no cache delete is issued at all. -/
theorem mutTail_spec {M : Type} (env : Env M) (c : ModelFunc M) (model : M)
    (id : Nat) (w : Option GoErr) (ev : Event)
    (hev : ∀ k, ev ≠ Event.cacheDel k) :
    ((mutTail env c model id w ev).1 = none →
      Event.cacheDel (cacheKey c id) ∈ (mutTail env c model id w ev).2 ∧
      ∀ p ∈ c.LinkMap, p.2.FieldValue model ≠ "" →
        Event.cacheDel (linkKey c p.1 (p.2.FieldValue model))
          ∈ (mutTail env c model id w ev).2) ∧
    (w ≠ none → ∀ k, Event.cacheDel k ∉ (mutTail env c model id w ev).2) := by
  rcases w with _ | e
  · rcases h2 : env.cacheDel (cacheKey c id) with _ | e2
    · constructor
      · intro _
        constructor
        · simp [mutTail, deleteCache, h2]
        · intro p hp hf
          have hm := mem_delLinkLoop env c model hp hf
          simp [mutTail, deleteCache, h2]
          tauto
      · intro hw
        exact absurd rfl hw
    · constructor
      · intro hc
        simp [mutTail, deleteCache, h2] at hc
      · intro hw
        exact absurd rfl hw
  · constructor
    · intro hc
      simp [mutTail] at hc
    · intro _ k
      simp [mutTail]
      intro heq
      exact hev k heq.symm

/-- When the linkType is registered and the id obtained from the link cache
casts to zero, `FirstByLink` invokes the registered resolver. -/
theorem finderFind_mem {M : Type} (env : Env M) (c : ModelFunc M)
    (linkType : String) (model : M) (field : String) (finder : LinkFinder M)
    (hlk : lookupLink c linkType = some finder)
    (hc : castToUint64 (getLinkId env c linkType field).1 = 0) :
    Event.finderFind linkType field ∈ (FirstByLink env c linkType model field).2 := by
  unfold FirstByLink
  rw [hlk]
  simp only [hc]
  rw [if_pos trivial]
  split
  · simp
  · split
    · split
      · simp
      · split <;> simp
    · simp

/-! ### Claim theorems -/

/-- C6: `FirstByLinkSD` is behaviorally identical to `FirstByLink` on every
input — same registry check, same link-cache lookup, same resolver
fallback, and the same final delegation to `FirstById` rather than the
soft-delete-aware fetch. -/
theorem FirstByLinkSD_eq_FirstByLink {M : Type} (env : Env M) (c : ModelFunc M)
    (linkType : String) (model : M) (field : String) :
    FirstByLinkSD env c linkType model field
      = FirstByLink env c linkType model field := rfl

/-- C4: for each of `UpdateById`, `SaveById`, `DeleteById` and
`SoftDeleteById`, when the Record type exposes the corresponding hook
method and the hook returns an error, that error is the operation's
returned error, superseding whatever the underlying store/cache step
produced. -/
theorem hook_error_supersedes {M : Type} (env : Env M) (c : ModelFunc M)
    (model : M) (id : Nat) (e : GoErr) :
    (env.hook "MfAfterUpdateById" model = some (some e) →
      (UpdateById env c model id).1 = some e) ∧
    (env.hook "MfAfterSaveById" model = some (some e) →
      (SaveById env c model id).1 = some e) ∧
    (env.hook "MfAfterDeleteById" model = some (some e) →
      (DeleteById env c model id).1 = some e) ∧
    (env.hook "MfAfterSoftDeleteById" model = some (some e) →
      (SoftDeleteById env c model id).1 = some e) := by
  refine ⟨fun h => ?_, fun h => ?_, fun h => ?_, fun h => ?_⟩ <;>
    simp [UpdateById, SaveById, DeleteById, SoftDeleteById, hookRun, h]

/-- Witness for C4: with a failing store write and a hook failing with its
own error, `UpdateById` returns the hook's error. -/
theorem hook_error_supersedes_witness :
    (UpdateById envHook cfgNoCache 5 1).1 = some (.oth "hook failed") :=
  (hook_error_supersedes envHook cfgNoCache 5 1 (.oth "hook failed")).1 rfl

/-- C1 (amended): for each cache-mode mutation path (`updateByIdR`,
`saveByIdR`, `deleteByIdR`, `softDeleteByIdR`): when the path returns
success, the primary cache delete for the id and a link-cache delete for
every registered linkType whose extracted field value is non-empty were
issued; when the store write fails, no cache delete of any kind is
issued. -/
theorem mutation_invalidates_cache {M : Type} (env : Env M) (c : ModelFunc M)
    (model : M) (id : Nat) :
    (((updateByIdR env c model id).1 = none →
        Event.cacheDel (cacheKey c id) ∈ (updateByIdR env c model id).2 ∧
        ∀ p ∈ c.LinkMap, p.2.FieldValue model ≠ "" →
          Event.cacheDel (linkKey c p.1 (p.2.FieldValue model))
            ∈ (updateByIdR env c model id).2) ∧
      (env.storeUpdate id model ≠ none →
        ∀ k, Event.cacheDel k ∉ (updateByIdR env c model id).2)) ∧
    (((saveByIdR env c model id).1 = none →
        Event.cacheDel (cacheKey c id) ∈ (saveByIdR env c model id).2 ∧
        ∀ p ∈ c.LinkMap, p.2.FieldValue model ≠ "" →
          Event.cacheDel (linkKey c p.1 (p.2.FieldValue model))
            ∈ (saveByIdR env c model id).2) ∧
      (env.storeSave id model ≠ none →
        ∀ k, Event.cacheDel k ∉ (saveByIdR env c model id).2)) ∧
    (((deleteByIdR env c model id).1 = none →
        Event.cacheDel (cacheKey c id) ∈ (deleteByIdR env c model id).2 ∧
        ∀ p ∈ c.LinkMap, p.2.FieldValue model ≠ "" →
          Event.cacheDel (linkKey c p.1 (p.2.FieldValue model))
            ∈ (deleteByIdR env c model id).2) ∧
      (env.storeDelete id model ≠ none →
        ∀ k, Event.cacheDel k ∉ (deleteByIdR env c model id).2)) ∧
    (((softDeleteByIdR env c model id).1 = none →
        Event.cacheDel (cacheKey c id) ∈ (softDeleteByIdR env c model id).2 ∧
        ∀ p ∈ c.LinkMap, p.2.FieldValue model ≠ "" →
          Event.cacheDel (linkKey c p.1 (p.2.FieldValue model))
            ∈ (softDeleteByIdR env c model id).2) ∧
      (env.storeSoftDelete id model ≠ none →
        ∀ k, Event.cacheDel k ∉ (softDeleteByIdR env c model id).2)) := by
  refine ⟨?_, ?_, ?_, ?_⟩
  · exact mutTail_spec env c model id (env.storeUpdate id model)
      (Event.storeUpdate id) (fun k => by simp)
  · exact mutTail_spec env c model id (env.storeSave id model)
      (Event.storeSave id) (fun k => by simp)
  · exact mutTail_spec env c model id (env.storeDelete id model)
      (Event.storeDelete id) (fun k => by simp)
  · exact mutTail_spec env c model id (env.storeSoftDelete id model)
      (Event.storeSoftDelete id) (fun k => by simp)

/-- Witness for C1: a successful cached update issues the primary delete
and the link delete for the registered linkType with non-empty field. -/
theorem mutation_invalidates_cache_witness :
    Event.cacheDel (cacheKey cfgCache 1) ∈ (updateByIdR envBase cfgCache 5 1).2 ∧
    Event.cacheDel (linkKey cfgCache "L" (finderF.FieldValue 5))
      ∈ (updateByIdR envBase cfgCache 5 1).2 := by
  have h := ((mutation_invalidates_cache envBase cfgCache 5 1).1).1 rfl
  exact ⟨h.1, h.2 ("L", finderF) (List.Mem.head _) (by decide)⟩

/-- Counterexample to C1 as stated: with a registered linkType whose
extracted field value is empty, the cached update succeeds yet no
link-cache delete is issued for that linkType. -/
theorem mutation_invalidates_cache_cex :
    (updateByIdR envBase cfgEmptyField 5 1).1 = none ∧
    Event.cacheDel (linkKey cfgEmptyField "L" (finderEmptyF.FieldValue 5))
      ∉ (updateByIdR envBase cfgEmptyField 5 1).2 := by
  refine ⟨rfl, ?_⟩
  decide

/-- C2 evaluation at the failing input: with no hook method on the Record
type, each of the four mutations returns nil even though its store write
failed — the primary step's error does not propagate (the Go functions end
in `return c.hook(...)`, discarding the assigned `err`). -/
theorem mutation_drops_store_error :
    (envErrStore.storeUpdate 1 5 = some (.oth "boom")
      ∧ (UpdateById envErrStore cfgNoCache 5 1).1 = none) ∧
    (envErrStore.storeSave 1 5 = some (.oth "boom")
      ∧ (SaveById envErrStore cfgNoCache 5 1).1 = none) ∧
    (envErrStore.storeDelete 1 5 = some (.oth "boom")
      ∧ (DeleteById envErrStore cfgNoCache 5 1).1 = none) ∧
    (envErrStore.storeSoftDelete 1 5 = some (.oth "boom")
      ∧ (SoftDeleteById envErrStore cfgNoCache 5 1).1 = none) := by
  refine ⟨⟨rfl, rfl⟩, ⟨rfl, rfl⟩, ⟨rfl, rfl⟩, ⟨rfl, rfl⟩⟩

/-- C8: in each cache-mode mutation, once the store write and the primary
cache delete have succeeded the result is success whatever the link-cache
deletes return (their errors are discarded), and the invalidation loop
ranges over the whole registry: the trace ends with the concatenated
`delLink` calls of every registered linkType, in registry order. -/
theorem link_delete_errors_discarded {M : Type} (env : Env M) (c : ModelFunc M)
    (model : M) (id : Nat) (hdel : env.cacheDel (cacheKey c id) = none) :
    (env.storeUpdate id model = none →
      updateByIdR env c model id
        = (none, [Event.storeUpdate id] ++ [Event.cacheDel (cacheKey c id)]
            ++ (c.LinkMap.map
                (fun p => (delLink env c p.1 (p.2.FieldValue model)).2)).flatten)) ∧
    (env.storeSave id model = none →
      saveByIdR env c model id
        = (none, [Event.storeSave id] ++ [Event.cacheDel (cacheKey c id)]
            ++ (c.LinkMap.map
                (fun p => (delLink env c p.1 (p.2.FieldValue model)).2)).flatten)) ∧
    (env.storeDelete id model = none →
      deleteByIdR env c model id
        = (none, [Event.storeDelete id] ++ [Event.cacheDel (cacheKey c id)]
            ++ (c.LinkMap.map
                (fun p => (delLink env c p.1 (p.2.FieldValue model)).2)).flatten)) ∧
    (env.storeSoftDelete id model = none →
      softDeleteByIdR env c model id
        = (none, [Event.storeSoftDelete id] ++ [Event.cacheDel (cacheKey c id)]
            ++ (c.LinkMap.map
                (fun p => (delLink env c p.1 (p.2.FieldValue model)).2)).flatten)) := by
  refine ⟨fun hw => ?_, fun hw => ?_, fun hw => ?_, fun hw => ?_⟩ <;>
    simp [updateByIdR, saveByIdR, deleteByIdR, softDeleteByIdR,
      updateByIdM, saveByIdM, deleteByIdM, softDeleteByIdM,
      deleteCache, delLinkLoop, hw, hdel]

/-- Witness for C8: with the link-key delete failing, the cached update
still returns success. -/
theorem link_delete_errors_discarded_witness :
    (updateByIdR envLinkDelFail cfgCache 5 1).1 = none := by
  have h := (link_delete_errors_discarded envLinkDelFail cfgCache 5 1 (by decide)).1 rfl
  rw [h]

/-- C10: in `FirstByLink` and `FirstByLinkSD`, any error from the link-cache
lookup — a cache-backend failure or the empty-field "missing parameter"
error — is discarded and treated as a miss: the registered resolver is
invoked instead of that error being returned. -/
theorem getLink_error_treated_as_miss {M : Type} (env : Env M) (c : ModelFunc M)
    (linkType : String) (model : M) (field : String) (finder : LinkFinder M)
    (hlk : lookupLink c linkType = some finder) (e : GoErr)
    (hg : (getLink env c linkType field).1 = .error e) :
    Event.finderFind linkType field ∈ (FirstByLink env c linkType model field).2 ∧
    Event.finderFind linkType field ∈ (FirstByLinkSD env c linkType model field).2 := by
  have h1 : castToUint64 (getLinkId env c linkType field).1 = 0 := by
    unfold getLinkId
    rcases hgl : getLink env c linkType field with ⟨r, t⟩
    rw [hgl] at hg
    simp only at hg
    rw [hg]
    rfl
  exact ⟨finderFind_mem env c linkType model field finder hlk h1,
    finderFind_mem env c linkType model field finder hlk h1⟩

/-- Witness for C10: an empty field makes the lookup fail with the
"missing parameter" error, yet both link fetches still call the
resolver. -/
theorem getLink_error_treated_as_miss_witness :
    Event.finderFind "L" "" ∈ (FirstByLink envBase cfgCache "L" 5 "").2 ∧
    Event.finderFind "L" "" ∈ (FirstByLinkSD envBase cfgCache "L" 5 "").2 :=
  getLink_error_treated_as_miss envBase cfgCache "L" 5 "" finderF rfl
    (.oth "getLink 缺少参数 field") rfl

/-- C3: cache-mode `FirstById` is read-through.  On a hit whose value
deserializes, it returns the cached Record and its whole trace is the one
cache read — no store query.  On the distinguished `redis.Nil` miss it
queries the store; if the store returns a Record, it writes its serialized
form under the configured expiry, and if that write succeeds it returns
the Record.  Any other error of the initial lookup is returned unchanged,
again without a store query. -/
theorem firstById_read_through {M : Type} (env : Env M) (c : ModelFunc M)
    (model : M) (id : Nat) (huc : c.UseCache = true) :
    (∀ s m1, env.cacheGet (cacheKey c id) = .ok s →
      env.deserialize s model = .ok m1 →
      FirstById env c model id = (.ok m1, [Event.cacheGet (cacheKey c id)])) ∧
    (env.cacheGet (cacheKey c id) = .error .redisNil →
      Event.storeFirst id ∈ (FirstById env c model id).2 ∧
      ∀ m2, (firstByIdM env id).1 = .ok m2 →
        Event.cacheSet (cacheKey c id) (env.serialize m2) c.Expire
          ∈ (FirstById env c model id).2 ∧
        (env.cacheSet (cacheKey c id) (env.serialize m2) c.Expire = none →
          (FirstById env c model id).1 = .ok m2)) ∧
    (∀ e, env.cacheGet (cacheKey c id) = .error e → ErrIsRedisNil e = false →
      FirstById env c model id = (.error e, [Event.cacheGet (cacheKey c id)])) := by
  refine ⟨fun s m1 hs hd => ?_, fun hmiss => ?_, fun e he hne => ?_⟩
  · simp [FirstById, huc, firstByIdR, getCache, hs, hd]
  · rcases hst : env.rows.find? (fun r => r.id == id) with _ | r
    · constructor
      · simp [FirstById, huc, firstByIdR, getCache, hmiss, ErrIsRedisNil,
          firstByIdM, hst]
      · intro m2 hm2
        simp [firstByIdM, hst] at hm2
    · have hdata : (firstByIdM env id).1 = .ok r.data := by
        simp [firstByIdM, hst]
      constructor
      · rcases hset : env.cacheSet (cacheKey c id) (env.serialize r.data) c.Expire
          with _ | e3 <;>
          simp [FirstById, huc, firstByIdR, getCache, hmiss, ErrIsRedisNil,
            firstByIdM, hst, updateCache, hset]
      · intro m2 hm2
        rw [hdata] at hm2
        simp only [Except.ok.injEq] at hm2
        subst hm2
        rcases hset : env.cacheSet (cacheKey c id) (env.serialize r.data) c.Expire
          with _ | e3
        · constructor
          · simp [FirstById, huc, firstByIdR, getCache, hmiss, ErrIsRedisNil,
              firstByIdM, hst, updateCache, hset]
          · intro _
            simp [FirstById, huc, firstByIdR, getCache, hmiss, ErrIsRedisNil,
              firstByIdM, hst, updateCache, hset]
        · constructor
          · simp [FirstById, huc, firstByIdR, getCache, hmiss, ErrIsRedisNil,
              firstByIdM, hst, updateCache, hset]
          · intro hcontra
            exact Option.noConfusion hcontra
  · simp [FirstById, huc, firstByIdR, getCache, he, hne]

/-- Witness for C3: a cache hit for id 1 deserializes to `7` and is
returned with no store query in the trace. -/
theorem firstById_read_through_witness :
    FirstById envHit cfgCache 5 1 = (.ok 7, [Event.cacheGet (cacheKey cfgCache 1)]) :=
  (firstById_read_through envHit cfgCache 5 1 rfl).1 "7" 7 rfl rfl

/-- C5: the store query behind `FirstByIdSD` matches only rows whose
soft-delete marker is the zero time, but the cache-mode path reads the very
same primary cache key as `FirstById`: on a cache hit both return the
cached copy with no store query at all, so a cached copy of a soft-deleted
row can satisfy `FirstByIdSD`. -/
theorem firstByIdSD_filters_store_but_shares_cache {M : Type} (env : Env M)
    (c : ModelFunc M) (model : M) (id : Nat) :
    (∀ d, (firstByIdFilterSoftDelM env id).1 = .ok d →
      ∃ r ∈ env.rows, r.id = id ∧ r.deleted_at = 0 ∧ r.data = d) ∧
    (c.UseCache = true → ∀ s m1, env.cacheGet (cacheKey c id) = .ok s →
      env.deserialize s model = .ok m1 →
      FirstByIdSD env c model id = (.ok m1, [Event.cacheGet (cacheKey c id)]) ∧
      FirstById env c model id = (.ok m1, [Event.cacheGet (cacheKey c id)])) := by
  constructor
  · intro d hd
    rcases hf : env.rows.find? (fun r => r.id == id && r.deleted_at == 0) with _ | r
    · simp [firstByIdFilterSoftDelM, hf] at hd
    · have hp := List.find?_some hf
      have hmem := List.mem_of_find?_eq_some hf
      simp only [Bool.and_eq_true, beq_iff_eq] at hp
      have hdr : d = r.data := by
        simp only [firstByIdFilterSoftDelM, hf, Except.ok.injEq] at hd
        exact hd.symm
      exact ⟨r, hmem, hp.1, hp.2, hdr.symm⟩
  · intro huc s m1 hs hd
    constructor
    · simp [FirstByIdSD, huc, firstByIdFilterSoftDelR, getCache, hs, hd]
    · simp [FirstById, huc, firstByIdR, getCache, hs, hd]

/-- Witness for C5: the only visible row with id 1 is soft-deleted
(marker 5), yet the cache-mode `FirstByIdSD` is satisfied by the cached
copy of it, with no store query issued. -/
theorem firstByIdSD_filters_store_but_shares_cache_witness :
    envSD.rows = [⟨1, 5, 42⟩] ∧
    FirstByIdSD envSD cfgCache 0 1 = (.ok 42, [Event.cacheGet (cacheKey cfgCache 1)]) :=
  ⟨rfl, ((firstByIdSD_filters_store_but_shares_cache envSD cfgCache 0 1).2
    rfl "42" 42 rfl rfl).1⟩

/-- C7: with a registered linkType and no usable cached link (the cached id
casts to zero), `FirstByLink` invokes the resolver's `Find`; if it yields
`n > 0` and the link entry creation succeeds, the call delegates to
`FirstById` at `n` with the link-creation events before the delegation's
events; if `Find` yields 0 without error the call returns success with the
Record untouched. -/
theorem firstByLink_resolver_path {M : Type} (env : Env M) (c : ModelFunc M)
    (linkType : String) (model : M) (field : String) (finder : LinkFinder M)
    (hlk : lookupLink c linkType = some finder)
    (hc : castToUint64 (getLinkId env c linkType field).1 = 0) :
    Event.finderFind linkType field ∈ (FirstByLink env c linkType model field).2 ∧
    (∀ n, finder.Find field = .ok n → 0 < n →
      (createLink env c n linkType field).1 = none →
      FirstByLink env c linkType model field
        = ((FirstById env c model n).1,
           (getLinkId env c linkType field).2 ++ [Event.finderFind linkType field]
             ++ (createLink env c n linkType field).2
             ++ (FirstById env c model n).2)) ∧
    (finder.Find field = .ok 0 →
      FirstByLink env c linkType model field
        = (.ok model,
           (getLinkId env c linkType field).2 ++ [Event.finderFind linkType field])) := by
  refine ⟨finderFind_mem env c linkType model field finder hlk hc,
    fun n hn hpos hcl => ?_, fun h0 => ?_⟩
  · unfold FirstByLink
    rw [hlk]
    simp only [hc]
    rw [if_pos trivial]
    rcases hcl2 : createLink env c n linkType field with ⟨w, t3⟩
    rw [hcl2] at hcl
    simp only at hcl
    subst hcl
    simp only [hn, hcl2, if_pos hpos, castToUint64_castToString]
  · unfold FirstByLink
    rw [hlk]
    simp only [hc]
    rw [if_pos trivial]
    simp only [h0]
    rw [if_neg (by omega)]

/-- Witness for C7: on a cold cache the resolver finds id 3 for field
`"fld"`, the link entry is created, and the call delegates to `FirstById`
at id 3. -/
theorem firstByLink_resolver_path_witness :
    FirstByLink envBase cfgCache "L" 5 "fld"
      = ((FirstById envBase cfgCache 5 3).1,
         (getLinkId envBase cfgCache "L" "fld").2 ++ [Event.finderFind "L" "fld"]
           ++ (createLink envBase cfgCache 3 "L" "fld").2
           ++ (FirstById envBase cfgCache 5 3).2) :=
  (firstByLink_resolver_path envBase cfgCache "L" 5 "fld" finderF rfl
    (by decide)).2.1 3 rfl (by decide) rfl

/-- C9: the primary cache key is exactly `prefix + "id:" + decimal(id)` and
the link cache key exactly `prefix + linkType + ":" + field`; every link
entry is written with the fixed 7-day TTL (604800000000000 ns), and every
primary entry — in particular any one written by the cache-mode read-through
— with the configured expiry. -/
theorem cache_key_formats {M : Type} (env : Env M) (c : ModelFunc M) (model : M)
    (id n : Nat) (linkType field : String) :
    cacheKey c id = c.RedisPrefixStr ++ "id:" ++ castToString id ∧
    linkKey c linkType field = c.RedisPrefixStr ++ linkType ++ ":" ++ field ∧
    linkTTL = 604800000000000 ∧
    (n ≠ 0 → field ≠ "" →
      (createLink env c n linkType field).2
        = [Event.cacheSet (linkKey c linkType field) (castToString n) linkTTL]) ∧
    (updateCache env c model id).2
      = [Event.cacheSet (cacheKey c id) (env.serialize model) c.Expire] ∧
    (∀ k v t, Event.cacheSet k v t ∈ (firstByIdR env c model id).2 →
      k = cacheKey c id ∧ t = c.Expire) := by
  refine ⟨rfl, rfl, rfl, fun hn hf => ?_, rfl, fun k v t hmem => ?_⟩
  · simp [createLink, hn, hf]
  · rcases hg : env.cacheGet (cacheKey c id) with e | s
    · by_cases hrn : ErrIsRedisNil e
      · rcases hst : env.rows.find? (fun r => r.id == id) with _ | r
        · simp [firstByIdR, getCache, hg, hrn, firstByIdM, hst] at hmem
        · rcases hset : env.cacheSet (cacheKey c id) (env.serialize r.data) c.Expire
            with _ | e3 <;>
            simp [firstByIdR, getCache, hg, hrn, firstByIdM, hst,
              updateCache, hset] at hmem <;>
            exact ⟨hmem.1, hmem.2.2⟩
      · simp [firstByIdR, getCache, hg, hrn] at hmem
    · rcases hd : env.deserialize s model with e2 | m1
      · by_cases hrn : ErrIsRedisNil e2
        · rcases hst : env.rows.find? (fun r => r.id == id) with _ | r
          · simp [firstByIdR, getCache, hg, hd, hrn, firstByIdM, hst] at hmem
          · rcases hset : env.cacheSet (cacheKey c id) (env.serialize r.data) c.Expire
              with _ | e3 <;>
              simp [firstByIdR, getCache, hg, hd, hrn, firstByIdM, hst,
                updateCache, hset] at hmem <;>
              exact ⟨hmem.1, hmem.2.2⟩
        · simp [firstByIdR, getCache, hg, hd, hrn] at hmem
      · simp [firstByIdR, getCache, hg, hd] at hmem

/-- Witness for C9: the concrete link entry for id 3 and field `"fld"` is
written under `"p:L:fld"` with the 7-day TTL. -/
theorem cache_key_formats_witness :
    (createLink envBase cfgCache 3 "L" "fld").2
      = [Event.cacheSet (linkKey cfgCache "L" "fld") (castToString 3) linkTTL] :=
  (cache_key_formats envBase cfgCache 5 1 3 "L" "fld").2.2.2.1
    (by decide) (by decide)

end Mf
